import Mathlib

/-!
Verification of the NeuralStack content pipeline.

This file gives a shallow embedding of the pipeline orchestrator
(`src/main.py`) and its content-generation stage (`src/agents/content.py`),
and proves or refutes the specified properties of slug derivation, article
generation, the content stage, and the orchestrator's ledger accounting.

Modelling conventions:
- Python strings are Lean `String`s (a wrapper around `List Char`); the
  character-level operations inherited from Python (`str.isalnum`,
  `str.lower`, `str.split()` whitespace classes) are modelled at their
  ASCII fragment, which is the fragment the pipeline's own data exercises.
- Python exceptions are modelled with `Except String`; a raised exception
  is an `Except.error` carrying the exception's message/kind.
- The current date/time (`datetime.utcnow()`) is passed in explicitly as a
  string parameter wherever the source reads the clock.
- File IO is modelled by passing on-disk state in and returning the state
  that is written back.
-/

/-! ## Character-level model (ASCII fragment of Python `str` methods) -/

/-- ASCII fragment of Python `str.isalnum` for a single character:
uppercase letters, lowercase letters, and digits. -/
abbrev pyIsAlnum (c : Char) : Prop :=
  (65 ≤ c.toNat ∧ c.toNat ≤ 90) ∨ (97 ≤ c.toNat ∧ c.toNat ≤ 122) ∨
    (48 ≤ c.toNat ∧ c.toNat ≤ 57)

/-- ASCII fragment of Python `str.lower` for a single character: maps
`A`–`Z` to `a`–`z` and leaves every other character unchanged. -/
def pyToLower (c : Char) : Char :=
  if 65 ≤ c.toNat ∧ c.toNat ≤ 90 then Char.ofNat (c.toNat + 32) else c

/-- Per-character step of `ContentAgent._slugify`'s join:
`c.lower() if c.isalnum() else "-"`. -/
def slugChar (c : Char) : Char :=
  if pyIsAlnum c then pyToLower c else '-'

/-- Python `"--" in slug`: whether two consecutive hyphens occur. -/
def containsDD : List Char → Bool
  | [] => false
  | [_] => false
  | a :: b :: rest => if a = '-' ∧ b = '-' then true else containsDD (b :: rest)

/-- One pass of Python `slug.replace("--", "-")`: scan left to right,
replacing non-overlapping occurrences of `--` by `-`. -/
def replaceDD : List Char → List Char
  | [] => []
  | [c] => [c]
  | a :: b :: rest =>
    if a = '-' ∧ b = '-' then '-' :: replaceDD rest else a :: replaceDD (b :: rest)

theorem replaceDD_length_le : ∀ l : List Char, (replaceDD l).length ≤ l.length
  | [] => by simp [replaceDD]
  | [c] => by simp [replaceDD]
  | a :: b :: rest => by
    by_cases h : a = '-' ∧ b = '-'
    · have := replaceDD_length_le rest
      simp only [replaceDD, if_pos h, List.length_cons]
      omega
    · have := replaceDD_length_le (b :: rest)
      simp only [replaceDD, if_neg h, List.length_cons] at *
      omega

theorem replaceDD_length_lt : ∀ l : List Char, containsDD l = true →
    (replaceDD l).length < l.length
  | [], h => by simp [containsDD] at h
  | [c], h => by simp [containsDD] at h
  | a :: b :: rest, h => by
    by_cases hab : a = '-' ∧ b = '-'
    · have := replaceDD_length_le rest
      simp only [replaceDD, if_pos hab, List.length_cons]
      omega
    · have hrec : containsDD (b :: rest) = true := by
        simpa [containsDD, if_neg hab] using h
      have := replaceDD_length_lt (b :: rest) hrec
      simp only [replaceDD, if_neg hab, List.length_cons] at *
      omega

/-- The loop `while "--" in slug: slug = slug.replace("--", "-")` from
`ContentAgent._slugify`. -/
def collapseDD (l : List Char) : List Char :=
  if containsDD l then collapseDD (replaceDD l) else l
termination_by l.length
decreasing_by exact replaceDD_length_lt l (by assumption)

/-- Python `slug.strip("-")`: remove all leading and all trailing hyphens. -/
def stripDash (l : List Char) : List Char :=
  (((l.dropWhile (fun c => c == '-')).reverse.dropWhile (fun c => c == '-'))).reverse

/-- `ContentAgent._slugify`:
`"".join(c.lower() if c.isalnum() else "-" for c in text)`, then collapse
consecutive hyphens, then `strip("-")`, then truncate with `[:80]`. -/
def slugify (text : String) : String :=
  ⟨(stripDash (collapseDD (text.data.map slugChar))).take 80⟩

/-! ## Basic facts about the slug pipeline -/

theorem collapseDD_eq_self {l : List Char} (h : containsDD l = false) :
    collapseDD l = l := by
  rw [collapseDD, h]
  simp

theorem containsDD_collapseDD (l : List Char) :
    containsDD (collapseDD l) = false := by
  rw [collapseDD]
  split
  · exact containsDD_collapseDD (replaceDD l)
  · simp_all
termination_by l.length
decreasing_by exact replaceDD_length_lt l (by assumption)

theorem replaceDD_subset : ∀ l : List Char, replaceDD l ⊆ l
  | [] => by simp [replaceDD]
  | [c] => by simp [replaceDD]
  | a :: b :: rest => by
    by_cases h : a = '-' ∧ b = '-'
    · obtain ⟨rfl, rfl⟩ := h
      simp only [replaceDD, if_pos (And.intro rfl rfl)]
      intro x hx
      rcases List.mem_cons.mp hx with hx | hx
      · simp [hx]
      · have := replaceDD_subset rest hx
        simp [this]
    · simp only [replaceDD, if_neg h]
      intro x hx
      rcases List.mem_cons.mp hx with hx | hx
      · simp [hx]
      · have := replaceDD_subset (b :: rest) hx
        simp only [List.mem_cons] at this ⊢
        tauto

theorem collapseDD_subset (l : List Char) : collapseDD l ⊆ l := by
  rw [collapseDD]
  split
  · intro x hx
    exact replaceDD_subset l (collapseDD_subset (replaceDD l) hx)
  · exact fun x hx => hx
termination_by l.length
decreasing_by exact replaceDD_length_lt l (by assumption)

theorem containsDD_iff : ∀ l : List Char,
    containsDD l = true ↔ ∃ u v : List Char, l = u ++ '-' :: '-' :: v
  | [] => by
    simp [containsDD]
  | [c] => by
    constructor
    · intro h
      simp [containsDD] at h
    · rintro ⟨u, v, hl⟩
      rcases u with _ | ⟨x, u⟩ <;> simp_all
  | a :: b :: rest => by
    by_cases hab : a = '-' ∧ b = '-'
    · obtain ⟨rfl, rfl⟩ := hab
      constructor
      · intro _
        exact ⟨[], rest, rfl⟩
      · intro _
        simp [containsDD]
    · rw [show containsDD (a :: b :: rest) = containsDD (b :: rest) by
        simp [containsDD, if_neg hab], containsDD_iff (b :: rest)]
      constructor
      · rintro ⟨u, v, hl⟩
        exact ⟨a :: u, v, by simp [hl]⟩
      · rintro ⟨u, v, hl⟩
        rcases u with _ | ⟨x, u⟩
        · exfalso
          apply hab
          constructor <;> simp_all
        · injection hl with h1 h2
          exact ⟨u, v, h2⟩

theorem containsDD_of_middle (s m t : List Char) (h : containsDD m = true) :
    containsDD (s ++ m ++ t) = true := by
  obtain ⟨u, v, rfl⟩ := (containsDD_iff m).mp h
  exact (containsDD_iff _).mpr ⟨s ++ u, v ++ t, by simp⟩

theorem containsDD_take {l : List Char} (h : containsDD l = false) (n : Nat) :
    containsDD (l.take n) = false := by
  by_contra hc
  have htrue : containsDD (l.take n) = true := by simpa using hc
  have := containsDD_of_middle [] (l.take n) (l.drop n) htrue
  rw [List.nil_append, List.take_append_drop] at this
  simp [this] at h

theorem containsDD_dropWhile {l : List Char} (h : containsDD l = false)
    (p : Char → Bool) : containsDD (l.dropWhile p) = false := by
  by_contra hc
  have htrue : containsDD (l.dropWhile p) = true := by simpa using hc
  have := containsDD_of_middle (l.takeWhile p) (l.dropWhile p) [] htrue
  rw [List.append_nil, List.takeWhile_append_dropWhile] at this
  simp [this] at h

theorem containsDD_reverse_of (l : List Char) (h : containsDD l = true) :
    containsDD l.reverse = true := by
  obtain ⟨u, v, rfl⟩ := (containsDD_iff l).mp h
  refine (containsDD_iff _).mpr ⟨v.reverse, u.reverse, ?_⟩
  simp

theorem containsDD_reverse {l : List Char} (h : containsDD l = false) :
    containsDD l.reverse = false := by
  by_contra hc
  have htrue : containsDD l.reverse = true := by simpa using hc
  have := containsDD_reverse_of l.reverse htrue
  rw [List.reverse_reverse] at this
  simp [this] at h

theorem head?_dropWhile {p : Char → Bool} :
    ∀ {l : List Char} {a : Char}, (l.dropWhile p).head? = some a → p a = false
  | [], a, h => by simp [List.dropWhile] at h
  | c :: cs, a, h => by
    by_cases hc : p c
    · rw [List.dropWhile_cons_of_pos hc] at h
      exact head?_dropWhile h
    · rw [List.dropWhile_cons_of_neg hc] at h
      simp only [List.head?_cons, Option.some.injEq] at h
      subst h
      simpa using hc

theorem dropWhile_eq_self {p : Char → Bool} {l : List Char}
    (h : ∀ a, l.head? = some a → p a = false) : l.dropWhile p = l := by
  cases l with
  | nil => rfl
  | cons c cs =>
    rw [List.dropWhile_cons_of_neg]
    simp [h c rfl]

theorem stripDash_append (l : List Char) :
    ∃ t : List Char, l.dropWhile (fun c => c == '-') = stripDash l ++ t := by
  have key : ∀ r : List Char, r.reverse =
      (r.dropWhile (fun c => c == '-')).reverse ++
        (r.takeWhile (fun c => c == '-')).reverse := by
    intro r
    conv_lhs => rw [← List.takeWhile_append_dropWhile
      (p := fun c : Char => c == '-') (l := r)]
    rw [List.reverse_append]
  refine ⟨((l.dropWhile (fun c => c == '-')).reverse.takeWhile
    (fun c => c == '-')).reverse, ?_⟩
  have h2 := key (l.dropWhile (fun c => c == '-')).reverse
  rw [List.reverse_reverse] at h2
  exact h2

theorem stripDash_head_ne {l : List Char} {a : Char}
    (h : (stripDash l).head? = some a) : a ≠ '-' := by
  obtain ⟨t, ht⟩ := stripDash_append l
  have hh : (l.dropWhile (fun c => c == '-')).head? = some a := by
    rw [ht]
    rcases hs : stripDash l with _ | ⟨x, xs⟩
    · rw [hs] at h
      simp at h
    · rw [hs] at h
      simpa using h
  have hp := head?_dropWhile hh
  simpa using hp

theorem stripDash_getLast_ne {l : List Char} {a : Char}
    (h : (stripDash l).getLast? = some a) : a ≠ '-' := by
  have hrv : ((l.dropWhile (fun c => c == '-')).reverse.dropWhile
      (fun c => c == '-')).head? = some a := by
    unfold stripDash at h
    rw [← List.head?_reverse, List.reverse_reverse] at h
    exact h
  have := head?_dropWhile hrv
  simpa using this

theorem containsDD_stripDash {l : List Char} (h : containsDD l = false) :
    containsDD (stripDash l) = false := by
  unfold stripDash
  apply containsDD_reverse
  apply containsDD_dropWhile
  apply containsDD_reverse
  exact containsDD_dropWhile h _

theorem stripDash_eq_self {l : List Char}
    (hh : ∀ a, l.head? = some a → a ≠ '-')
    (hl : ∀ a, l.getLast? = some a → a ≠ '-') : stripDash l = l := by
  have h1 : l.dropWhile (fun c => c == '-') = l :=
    dropWhile_eq_self (fun a ha => by simpa using hh a ha)
  have h2 : l.reverse.dropWhile (fun c => c == '-') = l.reverse :=
    dropWhile_eq_self (fun a ha => by
      rw [List.head?_reverse] at ha
      simpa using hl a ha)
  unfold stripDash
  rw [h1, h2, List.reverse_reverse]

theorem head?_take {l : List Char} {n : Nat} {a : Char}
    (h : (l.take n).head? = some a) : l.head? = some a := by
  cases l with
  | nil => simp at h
  | cons c cs =>
    cases n with
    | zero => simp at h
    | succ m => simpa using h

theorem stripDash_subset (l : List Char) : stripDash l ⊆ l := by
  intro x hx
  unfold stripDash at hx
  rw [List.mem_reverse] at hx
  have hx2 := (List.dropWhile_sublist _).subset hx
  rw [List.mem_reverse] at hx2
  exact (List.dropWhile_sublist _).subset hx2

/-- C3: for every input string, `_slugify` yields a slug with no leading
hyphen, no two consecutive hyphens, length at most 80, and — whenever the
result is shorter than 80 characters, i.e. the `[:80]` truncation did not
cut the slug — no trailing hyphen.  (The unrestricted no-trailing-hyphen
claim is refuted by `slugify_trailing_hyphen_at_80` below: truncation runs
after `strip("-")` and can cut the slug right after a hyphen.) -/
theorem slugify_slug_shape (s : String) :
    (slugify s).data.head? ≠ some '-' ∧
    containsDD (slugify s).data = false ∧
    (slugify s).length ≤ 80 ∧
    ((slugify s).length < 80 → (slugify s).data.getLast? ≠ some '-') := by
  refine ⟨?_, ?_, ?_, ?_⟩
  · intro h
    have h2 : (stripDash (collapseDD (s.data.map slugChar))).head? = some '-' :=
      head?_take h
    exact stripDash_head_ne h2 rfl
  · exact containsDD_take
      (containsDD_stripDash (containsDD_collapseDD _)) 80
  · show ((stripDash (collapseDD (s.data.map slugChar))).take 80).length ≤ 80
    rw [List.length_take]
    omega
  · intro hlt h
    have hlen : ((stripDash (collapseDD (s.data.map slugChar))).take 80).length < 80 :=
      hlt
    rw [List.length_take] at hlen
    have hle : (stripDash (collapseDD (s.data.map slugChar))).length ≤ 80 := by omega
    have heq : (slugify s).data = stripDash (collapseDD (s.data.map slugChar)) :=
      List.take_of_length_le hle
    rw [heq] at h
    exact stripDash_getLast_ne h rfl

/-- Witness for `slugify_slug_shape` at a concrete input. -/
theorem slugify_slug_shape_witness :
    (slugify "Vim vs VSCode!").data.head? ≠ some '-' ∧
    containsDD (slugify "Vim vs VSCode!").data = false ∧
    (slugify "Vim vs VSCode!").length ≤ 80 ∧
    ((slugify "Vim vs VSCode!").length < 80 →
      (slugify "Vim vs VSCode!").data.getLast? ≠ some '-') :=
  slugify_slug_shape "Vim vs VSCode!"

/-- An 81-character input (40 copies of `a-` followed by `a`) whose slug,
after hyphen collapsing and `strip("-")`, still has 81 characters, so the
final `[:80]` truncation ends exactly on a hyphen. -/
def slugEdgeInput : String :=
  "a-a-a-a-a-a-a-a-a-a-a-a-a-a-a-a-a-a-a-a-a-a-a-a-a-a-a-a-a-a-a-a-a-a-a-a-a-a-a-a-a"

/-- C3, counterexample: the claim "the slug has no trailing hyphen" is
false as stated — on `slugEdgeInput` the returned slug ends in a hyphen,
because `[:80]` truncation happens after `strip("-")`. -/
theorem slugify_trailing_hyphen_at_80 :
    (slugify slugEdgeInput).data.getLast? = some '-' := by
  have h : containsDD (slugEdgeInput.data.map slugChar) = false := by decide
  unfold slugify
  rw [collapseDD_eq_self h]
  decide

theorem slugChar_idem (c : Char) : slugChar (slugChar c) = slugChar c := by
  by_cases h : pyIsAlnum c
  · have hc : slugChar c = pyToLower c := by
      simp only [slugChar]
      rw [if_pos h]
    rcases h with ⟨h1, h2⟩ | ⟨h1, h2⟩ | ⟨h1, h2⟩
    · have hlow : pyToLower c = Char.ofNat (c.toNat + 32) := by
        simp only [pyToLower]
        rw [if_pos ⟨h1, h2⟩]
      rw [hc, hlow]
      generalize hn : c.toNat = n at h1 h2
      interval_cases n <;> decide
    · have hlow : pyToLower c = c := by
        simp only [pyToLower]
        rw [if_neg (by omega)]
      rw [hc, hlow]
      have hfix : slugChar c = c := by rw [hc, hlow]
      rw [hfix]
    · have hlow : pyToLower c = c := by
        simp only [pyToLower]
        rw [if_neg (by omega)]
      rw [hc, hlow]
      have hfix : slugChar c = c := by rw [hc, hlow]
      rw [hfix]
  · have hc : slugChar c = '-' := by
      simp only [slugChar]
      rw [if_neg h]
    rw [hc]
    decide

theorem map_id_of_fixed {f : Char → Char} :
    ∀ {l : List Char}, (∀ x ∈ l, f x = x) → l.map f = l
  | [], _ => rfl
  | x :: xs, h => by
    rw [List.map_cons, h x (by simp),
      map_id_of_fixed (fun y hy => h y (by simp [hy]))]

theorem slugify_char_fixed {s : String} {c : Char}
    (hc : c ∈ (slugify s).data) : slugChar c = c := by
  have h1 : c ∈ stripDash (collapseDD (s.data.map slugChar)) :=
    List.take_subset _ _ hc
  have h2 : c ∈ collapseDD (s.data.map slugChar) := stripDash_subset _ h1
  have h3 : c ∈ s.data.map slugChar := collapseDD_subset _ h2
  obtain ⟨d, _, hd⟩ := List.mem_map.mp h3
  rw [← hd]
  exact slugChar_idem d

/-- C4 amended: `_slugify` is idempotent on every input whose slug does not
end in a hyphen (in particular whenever the result is shorter than 80
characters).  Unrestricted idempotence is refuted by
`slugify_not_idempotent_at_80` below: when `[:80]` truncation cuts the
slug right after a hyphen, a second application strips that hyphen. -/
theorem slugify_idempotent_of_no_trailing (s : String)
    (h : (slugify s).data.getLast? ≠ some '-') :
    slugify (slugify s) = slugify s := by
  obtain ⟨hhead, hdd, hlen, _⟩ := slugify_slug_shape s
  have hmap : (slugify s).data.map slugChar = (slugify s).data :=
    map_id_of_fixed (fun x hx => slugify_char_fixed hx)
  have hcoll : collapseDD (slugify s).data = (slugify s).data :=
    collapseDD_eq_self hdd
  have hstrip : stripDash (slugify s).data = (slugify s).data :=
    stripDash_eq_self
      (fun a ha hc => hhead (by rw [ha, hc]))
      (fun a ha hc => h (by rw [ha, hc]))
  have htake : ((slugify s).data).take 80 = (slugify s).data :=
    List.take_of_length_le hlen
  apply String.ext
  show ((stripDash (collapseDD ((slugify s).data.map slugChar))).take 80) = _
  rw [hmap, hcoll, hstrip, htake]

/-- Witness for `slugify_idempotent_of_no_trailing` at a concrete input. -/
theorem slugify_idempotent_witness :
    slugify (slugify "Vim vs VSCode!") = slugify "Vim vs VSCode!" := by
  apply slugify_idempotent_of_no_trailing
  have h : containsDD ("Vim vs VSCode!".data.map slugChar) = false := by decide
  unfold slugify
  rw [collapseDD_eq_self h]
  decide

/-- C4, counterexample: idempotence fails as stated — on `slugEdgeInput`
the slug ends in a hyphen (see `slugify_trailing_hyphen_at_80`), and a
second application of `_slugify` strips that hyphen. -/
theorem slugify_not_idempotent_at_80 :
    slugify (slugify slugEdgeInput) ≠ slugify slugEdgeInput := by
  have h1 : containsDD (slugEdgeInput.data.map slugChar) = false := by decide
  have e1 : slugify slugEdgeInput =
      "a-a-a-a-a-a-a-a-a-a-a-a-a-a-a-a-a-a-a-a-a-a-a-a-a-a-a-a-a-a-a-a-a-a-a-a-a-a-a-a-" := by
    unfold slugify
    rw [collapseDD_eq_self h1]
    decide
  rw [e1]
  have h2 : containsDD
      (("a-a-a-a-a-a-a-a-a-a-a-a-a-a-a-a-a-a-a-a-a-a-a-a-a-a-a-a-a-a-a-a-a-a-a-a-a-a-a-a-" : String).data.map slugChar) = false := by
    decide
  unfold slugify
  rw [collapseDD_eq_self h2]
  decide

/-! ## Whitespace word counting (Python `str.split()` with no arguments) -/

/-- ASCII fragment of the whitespace class used by Python `str.split()`. -/
def isPySpace (c : Char) : Bool :=
  c == ' ' || c == '\t' || c == '\n' || c == '\r' || c == '\x0b' || c == '\x0c'

/-- Accumulator-based scan implementing Python `str.split()` (split on runs
of whitespace, no empty tokens); `acc` holds the current word reversed. -/
def pySplitAux : List Char → List Char → List (List Char)
  | [], acc => if acc.isEmpty then [] else [acc.reverse]
  | c :: cs, acc =>
    if isPySpace c then
      (if acc.isEmpty then pySplitAux cs [] else acc.reverse :: pySplitAux cs [])
    else
      pySplitAux cs (c :: acc)

/-- Python `content.split()`. -/
def pySplit (l : List Char) : List (List Char) := pySplitAux l []

/-- Python `len(content.split())`: the whitespace-delimited word count. -/
def wordCount (s : String) : Nat := (pySplit s.data).length

theorem pySplitAux_append_nl (a : List Char) (b : List Char) :
    ∀ acc, pySplitAux (a ++ '\n' :: '\n' :: b) acc =
      pySplitAux a acc ++ pySplitAux b [] := by
  induction a with
  | nil =>
    intro acc
    by_cases hacc : acc.isEmpty <;>
      simp [pySplitAux, isPySpace, hacc]
  | cons c cs ih =>
    intro acc
    by_cases hsp : isPySpace c
    · by_cases hacc : acc.isEmpty <;>
        simp [pySplitAux, hsp, hacc, ih]
    · simp [pySplitAux, hsp, ih]

theorem wordCount_append_pad (s p : String) :
    wordCount (s ++ "\n\n" ++ p) = wordCount s + wordCount p := by
  have hd : (s ++ "\n\n" ++ p).data = s.data ++ '\n' :: '\n' :: p.data := by
    rw [String.data_append, String.data_append, List.append_assoc]
    rfl
  unfold wordCount pySplit
  rw [hd, pySplitAux_append_nl, List.length_append]

/-! ## `SimpleLocalLLM.generate_long_form_article`

The section templates below are the `textwrap.dedent(...).strip()` results
of the triple-quoted literals in `src/agents/content.py`, with the
f-string interpolations `{keyword}` and `{now}` made explicit as function
arguments (`now` stands for `datetime.utcnow().strftime("%B %Y")`). -/

def MIN_WORDS : Nat := 1200

/-- Introduction section (f-string with `keyword` and `now`). -/
def intro (keyword now : String) : String :=
  "# " ++ keyword ++ "

As a practitioner who cares about maintainable systems and realistic trade-offs,
this guide walks through **real-world considerations** instead of fluffy marketing.
The goal is to help you make a confident decision about your tooling and architecture,
using language that any experienced engineer or tech lead would recognise.

In this article you will learn:

- How this topic fits into modern engineering workflows
- Concrete pros and cons you can explain to stakeholders
- Implementation patterns, edge cases, and failure modes to watch out for
- How to decide whether to adopt, migrate, or wait

All explanations target engineers shipping production systems in " ++ now ++ "."

/-- Section `h2_architecture`. -/
def h2_architecture : String :=
  "## Core concepts and mental models

Before we dive into specific tools, it is useful to step back and describe
the core mental models behind this topic. When you understand the moving
pieces conceptually, you become far less dependent on any single vendor
or framework.

Think about:

- The boundary between local development and production deployment
- Where state is stored and how it flows through the system
- Which teams own which layers of the stack
- What \"done\" means in terms of observability, reliability, and security

Even simple sounding decisions, such as choosing one editor or plugin
over another, tend to compound over years as teams, codebases, and
infrastructure evolve."

/-- Section `h2_use_cases` (f-string with `keyword`). -/
def h2_use_cases (keyword : String) : String :=
  "## High-intent use cases and user journeys

Search intent around this topic is rarely casual. Engineers typing
queries such as \"" ++ keyword ++ "\" are normally stuck on:

- A migration project with hard deadlines
- A compatibility issue blocking deployment
- A build, test, or debug workflow that has become painfully slow

When evaluating options, anchor on the **specific journeys**:

1. A new contributor cloning the repo and becoming productive.
2. A senior engineer debugging intermittent failures under load.
3. An ops team keeping the system observable, patchable, and auditable.
4. A tech lead justifying the stack to non-technical stakeholders."

/-- Section `h2_comparisons`. -/
def h2_comparisons : String :=
  "## Nuanced comparisons instead of hype

Tool comparisons often degenerate into unhelpful debates. A more
responsible way to reason about options is to define a shortlist of
evaluation criteria and then score each option in context.

Recommended lenses:

- Learning curve and onboarding experience
- Ecosystem maturity and plugin quality
- Failure behaviour and how issues surface during incidents
- Long-term maintainability for a growing team
- Vendor risk and lock-in mitigation strategies

When you read benchmarks or case studies, pause and ask whether the
environment, team skills, and risk profile actually match yours."

/-- Section `h2_arch_table`. -/
def h2_arch_table : String :=
  "## Architecture and workflow comparison table

| Dimension                 | Conservative choice                    | Progressive choice                         |
|---------------------------|----------------------------------------|--------------------------------------------|
| Primary optimisation      | Stability and predictability           | Velocity and expressiveness               |
| Tooling customisation     | Minimal, opinionated defaults          | Deep, scriptable, highly extensible       |
| Ideal team size           | Large orgs with multiple squads        | Small, senior-heavy product teams         |
| Operational burden        | Lower, easier to standardise           | Higher, needs clear ownership             |
| Risk of lock-in           | Moderate, but manageable               | Depends heavily on integration strategy   |

The right answer is rarely at either extreme. Most organisations end up
standardising on a conservative baseline while enabling power users to
extend their local workflows where it genuinely pays off."

/-- Section `h2_impl`. -/
def h2_impl : String :=
  "## Implementation guidelines and failure modes

From an implementation perspective, treat configuration as code and
invest early in reproducible environments. A few practical guidelines:

- Keep environment setup scripted and version-controlled.
- Capture decisions in lightweight design docs instead of tribal knowledge.
- Add smoke tests to catch obvious misconfigurations before release.
- Decide what \"good enough\" observability looks like before scaling usage.

Common failure modes include silent configuration drift, unclear
ownership of tooling, and one-off shell scripts that become accidental
production dependencies."

/-- Section `h2_affiliates` (a plain — not f- — string in the source, so
the double braces are literal text). -/
def h2_affiliates : String :=
  "## Recommended tools and resources (affiliate-ready)

The following slots are intentionally left as **affiliate placeholders**.
Replace them with tools that you genuinely recommend and that you or
your organisation have tested in real projects.

- \x7b\x7bAFFILIATE_TOOL_1\x7d\x7d — primary editor or IDE partner
- \x7b\x7bAFFILIATE_TOOL_2\x7d\x7d — observability or monitoring solution
- \x7b\x7bAFFILIATE_TOOL_3\x7d\x7d — managed hosting, CI, or security scanner

Transparency matters: clearly label commercial relationships and always
prioritise developer experience over commission size."

/-- Section `h2_faq`. -/
def h2_faq : String :=
  "## Frequently asked questions

### Is it safe to standardise on a single tool?

Standardisation helps reduce cognitive overhead, but you should still
leave room for exceptions. Allow power users to diverge when they
can demonstrate clear upside and are willing to document their setup.

### How often should we revisit our tooling choices?

In most teams, a light review every 12–18 months is enough. The goal
is not to chase trends, but to make sure your defaults do not become
an unexamined constraint that quietly slows product delivery.

### How can we evaluate claims in benchmarks and vendor content?

Treat glossy benchmarks as a starting point, not a conclusion. Recreate
the critical paths from your own system and run targeted experiments
under realistic constraints, including network conditions and data size."

/-- Section `h2_conclusion`. -/
def h2_conclusion : String :=
  "## Conclusion: how to move forward thoughtfully

The most sustainable decisions are usually boring from the outside.
Instead of chasing the newest stack, identify the smallest set of
changes that meaningfully de-risk your roadmap and improve developer
quality of life.

Make adoption explicit, reversible, and well-documented. Capture what
you tried, what worked, and what you decided not to pursue yet. That
historical context will save future teams enormous amounts of time
and prevent expensive re-litigations of settled questions."

/-- `body_sections` from `generate_long_form_article`. -/
def bodySections (keyword now : String) : List String :=
  [intro keyword now, h2_architecture, h2_use_cases keyword, h2_comparisons,
    h2_arch_table, h2_impl, h2_affiliates, h2_faq, h2_conclusion]

/-- `content = "\n\n".join(body_sections)`. -/
def baseContent (keyword now : String) : String :=
  String.intercalate "\n\n" (bodySections keyword now)

/-- The fixed padding sentence appended by the minimum-word-count loop
(the four adjacent Python string literals concatenated). -/
def padding : String :=
  " In practice, each organisation should run small, low-risk experiments, observe the operational impact over several weeks, and only then roll out broader changes. Document the trade-offs clearly so that future engineers can understand not just what you chose, but why other options were rejected."

theorem padding_words_pos : 0 < wordCount padding := by decide

/-- The minimum-word-count enforcement from `generate_long_form_article`:
`while len(words) < MIN_WORDS: content += "\n\n" + padding; words = content.split()`
(the `if len(words) < MIN_WORDS` guard in the source is subsumed by the
loop condition). -/
def ensureMinWords (content : String) : String :=
  if wordCount content < MIN_WORDS then
    ensureMinWords (content ++ "\n\n" ++ padding)
  else content
termination_by MIN_WORDS - wordCount content
decreasing_by
  rw [wordCount_append_pad]
  have := padding_words_pos
  omega

/-- `SimpleLocalLLM.generate_long_form_article`.  The `category` and
`intent` parameters are accepted but never used, exactly as in the
source; `now` models `datetime.utcnow().strftime("%B %Y")`. -/
def generate_long_form_article
    (keyword : String) (category : String) (intent : String)
    (now : String) : String :=
  ensureMinWords (baseContent keyword now)

theorem ensureMinWords_ge (content : String) :
    MIN_WORDS ≤ wordCount (ensureMinWords content) := by
  by_cases h : wordCount content < MIN_WORDS
  · rw [ensureMinWords, if_pos h]
    exact ensureMinWords_ge (content ++ "\n\n" ++ padding)
  · rw [ensureMinWords, if_neg h]
    omega
termination_by MIN_WORDS - wordCount content
decreasing_by
  rw [wordCount_append_pad]
  have := padding_words_pos
  omega

/-- C1: for every non-empty keyword, `generate_long_form_article(keyword,
"", "")` returns text whose whitespace-delimited word count is at least
`MIN_WORDS = 1200`: the padding loop re-counts after each append and only
stops at or above the threshold. -/
theorem generate_min_word_count (keyword now : String) (h : keyword ≠ "") :
    MIN_WORDS ≤ wordCount (generate_long_form_article keyword "" "" now) :=
  ensureMinWords_ge (baseContent keyword now)

/-- Witness for `generate_min_word_count` at a concrete keyword. -/
theorem generate_min_word_count_witness :
    MIN_WORDS ≤ wordCount
      (generate_long_form_article "vim vs vscode" "" "" "October 2025") :=
  generate_min_word_count "vim vs vscode" "October 2025" (by decide)

/-- `n` iterations of the padding loop body `content += "\n\n" + padding`. -/
def appendPads : Nat → String → String
  | 0, content => content
  | n + 1, content => appendPads n (content ++ "\n\n" ++ padding)

theorem ensureMinWords_bounded (content : String) :
    ∃ n, n ≤ MIN_WORDS - wordCount content ∧
      ensureMinWords content = appendPads n content := by
  by_cases h : wordCount content < MIN_WORDS
  · obtain ⟨n, hn, he⟩ := ensureMinWords_bounded (content ++ "\n\n" ++ padding)
    refine ⟨n + 1, ?_, ?_⟩
    · rw [wordCount_append_pad] at hn
      have := padding_words_pos
      omega
    · rw [ensureMinWords, if_pos h]
      exact he
  · exact ⟨0, by omega, by rw [ensureMinWords, if_neg h]; rfl⟩
termination_by MIN_WORDS - wordCount content
decreasing_by
  rw [wordCount_append_pad]
  have := padding_words_pos
  omega

/-- C9: the minimum-length padding loop terminates for every keyword,
category and intent, in a bounded number of iterations — the generator's
output is the base content with some `n ≤ MIN_WORDS` padding appends —
because the padding sentence has a fixed non-zero word count. -/
theorem generate_padding_terminates (keyword category intent now : String) :
    0 < wordCount padding ∧
    ∃ n, n ≤ MIN_WORDS ∧
      generate_long_form_article keyword category intent now =
        appendPads n (baseContent keyword now) := by
  refine ⟨padding_words_pos, ?_⟩
  obtain ⟨n, hn, he⟩ := ensureMinWords_bounded (baseContent keyword now)
  exact ⟨n, by omega, he⟩

/-- C10: with the reference time fixed, the generator's output is fully
determined by the keyword alone — the `category` and `intent` arguments
are never used in the body, so any two calls with the same keyword and
reference time return identical text. -/
theorem generate_ignores_category_intent
    (keyword now category1 intent1 category2 intent2 : String) :
    generate_long_form_article keyword category1 intent1 now =
      generate_long_form_article keyword category2 intent2 now := rfl

/-! ## `ContentAgent.run` (the content stage)

A Topic is a JSON dict produced by Discovery; `id` and `keyword` are
required keys (`topic["id"]`, `topic["keyword"]` — a missing key raises
`KeyError`), `category` and `intent` are optional (`topic.get(k, "")`).
Each field is `none` when the key is absent. -/

structure Topic where
  id : Option String
  keyword : Option String
  category : Option String
  intent : Option String
deriving DecidableEq

/-- The `DraftArticle` dataclass from `src/agents/content.py`. -/
structure DraftArticle where
  topic_id : String
  title : String
  slug : String
  content : String
  created_at : String
deriving DecidableEq

/-- `ContentAgent.run`.  `now` models the `strftime("%B %Y")` date used
inside the generator; `createdAt i` models the `datetime.utcnow()`
timestamp taken for the `i`-th processed topic; `i` is the index of the
first topic of the remaining list.  A missing required key raises
`KeyError`, aborting the whole stage with no partial output, exactly as
the Python `for` loop does (the local `drafts` list is discarded). -/
def ContentAgent.run (now : String) (createdAt : Nat → String) :
    Nat → List Topic → Except String (List DraftArticle)
  | _, [] => .ok []
  | i, topic :: rest =>
    match topic.keyword with
    | none => .error "KeyError: keyword"
    | some title =>
      let slug := slugify title
      let content := generate_long_form_article title
        (topic.category.getD "") (topic.intent.getD "") now
      match topic.id with
      | none => .error "KeyError: id"
      | some tid =>
        match ContentAgent.run now createdAt (i + 1) rest with
        | .error e => .error e
        | .ok ds =>
          .ok ({ topic_id := tid, title := title, slug := slug,
                 content := content, created_at := createdAt i } :: ds)

/-- C5: on a topic list in which every topic has the required `id` and
`keyword` fields, `ContentAgent.run` succeeds and returns exactly one
draft per topic, in the same order: the j-th draft's `topic_id` is the
j-th topic's `id`. -/
theorem contentAgent_run_ok (now : String) (createdAt : Nat → String) :
    ∀ (topics : List Topic) (i : Nat),
      (∀ t ∈ topics, t.id ≠ none ∧ t.keyword ≠ none) →
      ∃ ds : List DraftArticle,
        ContentAgent.run now createdAt i topics = .ok ds ∧
        ds.length = topics.length ∧
        ∀ (j : Nat) (hj : j < topics.length) (hj' : j < ds.length),
          (topics.get ⟨j, hj⟩).id = some (ds.get ⟨j, hj'⟩).topic_id := by
  intro topics
  induction topics with
  | nil =>
    intro i _
    exact ⟨[], rfl, rfl, fun j hj => by simp at hj⟩
  | cons topic rest ih =>
    intro i h
    obtain ⟨hid, hkw⟩ := h topic (by simp)
    obtain ⟨tid, htid⟩ := Option.ne_none_iff_exists'.mp hid
    obtain ⟨title, htitle⟩ := Option.ne_none_iff_exists'.mp hkw
    obtain ⟨ds, hds, hlen, hmatch⟩ :=
      ih (i + 1) (fun t ht => h t (by simp [ht]))
    refine ⟨DraftArticle.mk tid title (slugify title)
        (generate_long_form_article title (topic.category.getD "")
          (topic.intent.getD "") now)
        (createdAt i) :: ds, ?_, ?_, ?_⟩
    · rw [ContentAgent.run, htitle, htid, hds]
    · simp [hlen]
    · intro j hj hj'
      cases j with
      | zero => simpa using htid
      | succ k =>
        simp only [List.length_cons, Nat.add_lt_add_iff_right] at hj hj'
        simpa using hmatch k hj hj'

/-- A concrete well-formed topic list for the content-stage witnesses. -/
def topicsW : List Topic :=
  [Topic.mk (some "t1") (some "vim vs vscode") none none,
   Topic.mk (some "t2") (some "docker compose") (some "devops") (some "howto")]

/-- Witness for `contentAgent_run_ok` at a concrete topic list. -/
theorem contentAgent_run_ok_witness :
    ∃ ds : List DraftArticle,
      ContentAgent.run "October 2025" (fun _ => "2025-10-12T00:00:00Z") 0 topicsW =
        .ok ds ∧
      ds.length = topicsW.length ∧
      ∀ (j : Nat) (hj : j < topicsW.length) (hj' : j < ds.length),
        (topicsW.get ⟨j, hj⟩).id = some (ds.get ⟨j, hj'⟩).topic_id :=
  contentAgent_run_ok "October 2025" (fun _ => "2025-10-12T00:00:00Z")
    topicsW 0 (by decide)

/-- C6: on a topic list containing some topic that lacks `id` or lacks
`keyword`, `ContentAgent.run` raises (`KeyError`) for the whole stage —
the result is an error and carries no partial draft list — and the error
propagates to the caller (the stage itself catches nothing). -/
theorem contentAgent_run_error (now : String) (createdAt : Nat → String) :
    ∀ (topics : List Topic) (i : Nat),
      (∃ t ∈ topics, t.id = none ∨ t.keyword = none) →
      ∃ e, ContentAgent.run now createdAt i topics = .error e := by
  intro topics
  induction topics with
  | nil =>
    intro i h
    simp at h
  | cons topic rest ih =>
    intro i h
    rcases h with ⟨t, ht, hbad⟩
    rcases List.mem_cons.mp ht with rfl | ht'
    · rcases hbad with hid | hkw
      · cases hkw2 : t.keyword with
        | none => exact ⟨"KeyError: keyword", by rw [ContentAgent.run, hkw2]⟩
        | some title => exact ⟨"KeyError: id", by rw [ContentAgent.run, hkw2, hid]⟩
      · exact ⟨"KeyError: keyword", by rw [ContentAgent.run, hkw]⟩
    · obtain ⟨e, he⟩ := ih (i + 1) ⟨t, ht', hbad⟩
      cases hkw : topic.keyword with
      | none => exact ⟨"KeyError: keyword", by rw [ContentAgent.run, hkw]⟩
      | some title =>
        cases hid : topic.id with
        | none => exact ⟨"KeyError: id", by rw [ContentAgent.run, hkw, hid]⟩
        | some tid => exact ⟨e, by rw [ContentAgent.run, hkw, hid, he]⟩

/-- A concrete topic list whose second topic lacks the `keyword` key. -/
def topicsBad : List Topic :=
  [Topic.mk (some "t1") (some "vim vs vscode") none none,
   Topic.mk (some "t2") none none none]

/-- Witness for `contentAgent_run_error` at a concrete malformed list. -/
theorem contentAgent_run_error_witness :
    ∃ e, ContentAgent.run "October 2025" (fun _ => "2025-10-12T00:00:00Z") 0
      topicsBad = .error e :=
  contentAgent_run_error "October 2025" (fun _ => "2025-10-12T00:00:00Z")
    topicsBad 0 (by decide)

/-! ## The pipeline orchestrator (`run_pipeline` in `src/main.py`)

Discovery, Validation and Distribution are external collaborators (their
modules are not part of the verified core), so they enter the model as
opaque stage results/functions; the Content stage is the real
`ContentAgent.run` defined above.  Persistence (`save_performance`) is
modelled by the ledger value the orchestrator returns. -/

/-- The `run_entry` dict built by `run_pipeline`. -/
structure RunEntry where
  timestamp : String
  status : String
  generated_topics : Nat
  generated_articles : Nat
  published_articles : Nat
  errors : List String
deriving DecidableEq

/-- The performance ledger persisted in `performance.json`, at its
documented shape. -/
structure PerformanceLedger where
  runs : List RunEntry
  articles_published : Nat
  last_run : Option String
  errors : List String
deriving DecidableEq

/-- The initial `run_entry` value (`status = "started"`, zero counts). -/
def initialRunEntry (ts : String) : RunEntry :=
  { timestamp := ts, status := "started", generated_topics := 0,
    generated_articles := 0, published_articles := 0, errors := [] }

/-- The `try`/`except` block of `run_pipeline`: run the four stages in
order, recording counts as each completes; any exception is caught once
at this single boundary, turning the entry's status to `"failed"` and
appending the exception message to its `errors`. -/
def runStages (discovery : Except String (List Topic))
    (validation : List DraftArticle → Except String (List DraftArticle))
    (distribution : List DraftArticle → Except String (List String))
    (now : String) (createdAt : Nat → String) (ts : String) : RunEntry :=
  let e0 := initialRunEntry ts
  match discovery with
  | .error exc => { e0 with status := "failed", errors := e0.errors ++ [exc] }
  | .ok newTopics =>
    let e1 := { e0 with generated_topics := newTopics.length }
    match ContentAgent.run now createdAt 0 newTopics with
    | .error exc => { e1 with status := "failed", errors := e1.errors ++ [exc] }
    | .ok drafts =>
      let e2 := { e1 with generated_articles := drafts.length }
      match validation drafts with
      | .error exc => { e2 with status := "failed", errors := e2.errors ++ [exc] }
      | .ok approved =>
        match distribution approved with
        | .error exc =>
          { e2 with status := "failed", errors := e2.errors ++ [exc] }
        | .ok published =>
          { e2 with published_articles := published.length, status := "success" }

/-- The `finally` block of `run_pipeline`: append the entry, set
`last_run`, add the published count, extend the cumulative errors.  The
returned ledger is the value passed to `save_performance`. -/
def finalizeLedger (performance : PerformanceLedger) (entry : RunEntry) :
    PerformanceLedger :=
  { runs := performance.runs ++ [entry],
    last_run := some entry.timestamp,
    articles_published := performance.articles_published + entry.published_articles,
    errors := performance.errors ++ entry.errors }

/-- `run_pipeline`, from the loaded ledger to the persisted one: the
stage sequence produces one `RunEntry` (success or failure), and the
`finally` block always folds it into the ledger. -/
def run_pipeline (performance : PerformanceLedger)
    (discovery : Except String (List Topic))
    (validation : List DraftArticle → Except String (List DraftArticle))
    (distribution : List DraftArticle → Except String (List String))
    (now : String) (createdAt : Nat → String) (ts : String) :
    PerformanceLedger :=
  finalizeLedger performance
    (runStages discovery validation distribution now createdAt ts)

/-- C2: for every starting ledger and every invocation — whatever the
stage results, success or exception — finalization runs: `runs` grows by
exactly the one new entry, `articles_published` grows by exactly that
entry's `published_articles`, and `last_run` is the entry's timestamp.
The returned (persisted) ledger always has this form because the update
sits in a `finally` block. -/
theorem run_pipeline_finalizes (performance : PerformanceLedger)
    (discovery : Except String (List Topic))
    (validation : List DraftArticle → Except String (List DraftArticle))
    (distribution : List DraftArticle → Except String (List String))
    (now : String) (createdAt : Nat → String) (ts : String) :
    (run_pipeline performance discovery validation distribution
        now createdAt ts).runs =
      performance.runs ++
        [runStages discovery validation distribution now createdAt ts] ∧
    (run_pipeline performance discovery validation distribution
        now createdAt ts).runs.length = performance.runs.length + 1 ∧
    (run_pipeline performance discovery validation distribution
        now createdAt ts).articles_published =
      performance.articles_published +
        (runStages discovery validation distribution
          now createdAt ts).published_articles ∧
    (run_pipeline performance discovery validation distribution
        now createdAt ts).last_run =
      some (runStages discovery validation distribution
        now createdAt ts).timestamp := by
  refine ⟨rfl, ?_, rfl, rfl⟩
  show (performance.runs ++ [_]).length = performance.runs.length + 1
  rw [List.length_append, List.length_singleton]

/-- The ledger bookkeeping invariant of §3 of the spec:
`articles_published` is the sum of `published_articles` over all recorded
runs, and `errors` is the concatenation, in run order, of the runs'
`errors` lists. -/
def ledgerInv (p : PerformanceLedger) : Prop :=
  p.articles_published = (p.runs.map RunEntry.published_articles).sum ∧
  p.errors = (p.runs.map RunEntry.errors).join

instance (p : PerformanceLedger) : Decidable (ledgerInv p) :=
  inferInstanceAs (Decidable (_ ∧ _))

/-- C8: every orchestrator invocation preserves the ledger invariant:
starting from a ledger whose `articles_published` is the sum of the
recorded runs' `published_articles` and whose `errors` is the
concatenation of their error lists, the persisted ledger satisfies the
same after appending the new run entry. -/
theorem run_pipeline_preserves_inv (performance : PerformanceLedger)
    (discovery : Except String (List Topic))
    (validation : List DraftArticle → Except String (List DraftArticle))
    (distribution : List DraftArticle → Except String (List String))
    (now : String) (createdAt : Nat → String) (ts : String)
    (h : ledgerInv performance) :
    ledgerInv (run_pipeline performance discovery validation distribution
      now createdAt ts) := by
  obtain ⟨h1, h2⟩ := h
  constructor
  · show performance.articles_published + _ = _
    rw [h1]
    simp [run_pipeline, finalizeLedger]
  · show performance.errors ++ _ = _
    rw [h2]
    simp [run_pipeline, finalizeLedger]

/-- Witness for `run_pipeline_preserves_inv` starting from the empty
default ledger with concrete stage behaviours. -/
theorem run_pipeline_preserves_inv_witness :
    ledgerInv (run_pipeline
      (PerformanceLedger.mk [] 0 none [])
      (Except.ok topicsW)
      (fun ds => Except.ok ds)
      (fun ds => Except.ok (ds.map DraftArticle.slug))
      "October 2025" (fun _ => "2025-10-12T00:00:00Z")
      "2025-10-12T00:00:00Z") :=
  run_pipeline_preserves_inv (PerformanceLedger.mk [] 0 none [])
    (Except.ok topicsW) (fun ds => Except.ok ds)
    (fun ds => Except.ok (ds.map DraftArticle.slug))
    "October 2025" (fun _ => "2025-10-12T00:00:00Z") "2025-10-12T00:00:00Z"
    (by constructor <;> rfl)

/-! ## `load_performance` and ledger-file corruption

`json.loads` can return any JSON value, and `load_performance` performs
no shape validation: only read/parse failures are caught.  To settle the
corruption claim we model JSON values and the dict/list operations the
`finally` block performs on the loaded value; an `Except.error` is a
raised exception, which propagates out of `run_pipeline` (so
`save_performance` is never reached).  JSON numbers are modelled as
integers (floats do not occur in the ledger's documented shape). -/

inductive JValue where
  | null
  | bool (b : Bool)
  | num (n : Int)
  | str (s : String)
  | arr (elems : List JValue)
  | obj (fields : List (String × JValue))

/-- Dict lookup on the field list of a JSON object. -/
def jLookup : List (String × JValue) → String → Option JValue
  | [], _ => none
  | (k, v) :: rest, key => if k = key then some v else jLookup rest key

/-- Dict item assignment `d[key] = v` on the field list. -/
def jSetAssoc : List (String × JValue) → String → JValue → List (String × JValue)
  | [], key, v => [(key, v)]
  | (k, w) :: rest, key, v =>
    if k = key then (key, v) :: rest else (k, w) :: jSetAssoc rest key v

/-- Python `value[key]`: `KeyError` on a dict without the key,
`TypeError` on a non-dict. -/
def jSubscript (j : JValue) (key : String) : Except String JValue :=
  match j with
  | .obj fields =>
    match jLookup fields key with
    | some v => .ok v
    | none => .error "KeyError"
  | _ => .error "TypeError"

/-- Python `value[key] = v` on a dict; `TypeError` on a non-dict. -/
def jSetItem (j : JValue) (key : String) (v : JValue) : Except String JValue :=
  match j with
  | .obj fields => .ok (.obj (jSetAssoc fields key v))
  | _ => .error "TypeError"

/-- Python `value.get(key, dflt)`; `AttributeError` on a non-dict. -/
def jGetDefault (j : JValue) (key : String) (dflt : JValue) :
    Except String JValue :=
  match j with
  | .obj fields => .ok ((jLookup fields key).getD dflt)
  | _ => .error "AttributeError"

/-- Values Python `+` treats as integers (`bool` is an `int` subtype). -/
def jAsIntLike : JValue → Option Int
  | .num n => some n
  | .bool b => some (if b then 1 else 0)
  | _ => none

/-- Python `a + b` where `b` is an `int`; `TypeError` otherwise. -/
def jAdd (a b : JValue) : Except String JValue :=
  match jAsIntLike a, jAsIntLike b with
  | some x, some y => .ok (.num (x + y))
  | _, _ => .error "TypeError"

/-- Python `value.append(v)` on a list; `AttributeError` otherwise. -/
def jAppendItem (j : JValue) (v : JValue) : Except String JValue :=
  match j with
  | .arr xs => .ok (.arr (xs ++ [v]))
  | _ => .error "AttributeError"

/-- Python `value.extend(strings)` on a list; `AttributeError` otherwise. -/
def jExtendStrs (j : JValue) (ss : List String) : Except String JValue :=
  match j with
  | .arr xs => .ok (.arr (xs ++ ss.map JValue.str))
  | _ => .error "AttributeError"

/-- The `run_entry` dict as the JSON value appended to `runs`. -/
def runEntryJson (e : RunEntry) : JValue :=
  .obj [("timestamp", .str e.timestamp), ("status", .str e.status),
        ("generated_topics", .num e.generated_topics),
        ("generated_articles", .num e.generated_articles),
        ("published_articles", .num e.published_articles),
        ("errors", .arr (e.errors.map JValue.str))]

/-- The documented empty default ledger
`{"runs": [], "articles_published": 0, "last_run": null, "errors": []}`. -/
def defaultPerformanceJson : JValue :=
  .obj [("runs", .arr []), ("articles_published", .num 0),
        ("last_run", .null), ("errors", .arr [])]

/-- `load_performance`: `disk` is the outcome of reading and
`json.loads`-parsing `performance.json` — `none` when the file is
unreadable or not valid JSON (the `except Exception` path), `some v`
when parsing returned `v`.  The parsed value is returned as-is, with no
shape validation. -/
def load_performance (disk : Option JValue) : JValue :=
  match disk with
  | some v => v
  | none => defaultPerformanceJson

/-- The `finally` block of `run_pipeline` as executed on the raw loaded
JSON value: `performance["runs"].append(run_entry)`;
`performance["last_run"] = run_entry["timestamp"]`;
`performance["articles_published"] = performance.get("articles_published", 0)
+ run_entry.get("published_articles", 0)`; then the cumulative `errors`
extension.  The successful result is the value `save_performance`
writes; an error is an exception escaping `run_pipeline`. -/
def finallyBlockJson (performance : JValue) (entry : RunEntry) :
    Except String JValue := do
  let runs ← jSubscript performance "runs"
  let newRuns ← jAppendItem runs (runEntryJson entry)
  let p1 ← jSetItem performance "runs" newRuns
  let p2 ← jSetItem p1 "last_run" (.str entry.timestamp)
  let ap ← jGetDefault p2 "articles_published" (.num 0)
  let sum ← jAdd ap (.num entry.published_articles)
  let p3 ← jSetItem p2 "articles_published" sum
  let errs ← jGetDefault p3 "errors" (.arr [])
  let newErrs ← jExtendStrs errs entry.errors
  jSetItem p3 "errors" newErrs

/-- C7 amended: when the ledger file is unreadable or its content is not
parseable as JSON, `load_performance` substitutes the documented empty
default and the following run finalizes successfully — parse-level
corruption is never fatal.  (Content that parses to JSON of the wrong
shape is returned unvalidated and can still crash the run: see
`load_performance_wrong_shape_fatal`.) -/
theorem load_performance_default_recovers :
    load_performance none = defaultPerformanceJson ∧
    ∀ entry : RunEntry, ∃ j : JValue,
      finallyBlockJson (load_performance none) entry = .ok j := by
  refine ⟨rfl, fun entry => ?_⟩
  exact ⟨_, rfl⟩

/-- C7, counterexample: on file content `{}` — corrupt as a ledger but
valid JSON — `load_performance` does not substitute the default; it
returns the unusable value, and the orchestrator's finalization then
raises `KeyError` on `performance["runs"]`, so the corruption is fatal
to the run (the ledger is never persisted), contradicting the claim. -/
theorem load_performance_wrong_shape_fatal :
    load_performance (some (JValue.obj [])) = JValue.obj [] ∧
    finallyBlockJson (load_performance (some (JValue.obj [])))
      (initialRunEntry "2025-10-12T00:00:00Z") = .error "KeyError" :=
  ⟨rfl, rfl⟩
